import Mathlib

/-!
Verification of the diff-to-comment positioning engine in `src/code_review.py`.

The Python source is shallowly embedded: Python `str` values are modelled as
`String` at the interface and as `List Char` for the character-level scans,
Python `dict`s as association lists with last-write-wins insertion
(`dinsert`/`dget`), Python `set`s of ints as duplicate-free `List Int` built by
`sadd` (order is irrelevant: every consumer either sorts or tests membership),
Python `None`-able values as `Option`, and Python runtime exceptions
(`TypeError` from `None + 1`, `ValueError` from `int(...)`, `IndexError` from
list indexing) as `Except PyErr`.  `pyInt?` models the behaviour of Python
`int(...)` on the optional-sign-plus-digits strings that occur in hunk
headers; `pySplitlines` models `str.splitlines()` for `\n`-separated text
(the only separator occurring in unified diffs).
-/

namespace CodeReview

/-- Python runtime exceptions that the embedded functions can raise. -/
inductive PyErr
  | typeError
  | valueError
  | indexError
deriving DecidableEq

/-- The character list of a string literal (Python `str` at character level). -/
def strL (s : String) : List Char := s.data

/-- Python `s.startswith(pre)` on character lists. -/
def startsWithCh : List Char → List Char → Bool
  | _, [] => true
  | [], _ :: _ => false
  | c :: cs, p :: ps => c == p && startsWithCh cs ps

/-- Python `s.split(sep)` for a one-character separator: keeps empty pieces. -/
def splitOnCh (sep : Char) : List Char → List (List Char)
  | [] => [[]]
  | c :: cs =>
    if c == sep then [] :: splitOnCh sep cs
    else
      match splitOnCh sep cs with
      | [] => [[c]]
      | t :: ts => (c :: t) :: ts

/-- Python `s.splitlines()` for `\n`-separated text: split on `\n` and drop
the trailing empty piece produced by a final newline (`"".splitlines() = []`). -/
def pySplitlines (s : String) : List (List Char) :=
  let parts := splitOnCh '\n' s.data
  if parts.getLast? == some [] then parts.dropLast else parts

/-- Accumulate a decimal value; `none` as soon as a non-digit appears. -/
def digitsValAux : Nat → List Char → Option Nat
  | acc, [] => some acc
  | acc, c :: cs =>
    if '0' ≤ c ∧ c ≤ '9' then digitsValAux (acc * 10 + (c.toNat - '0'.toNat)) cs
    else none

/-- Python `int(s)` on an optional sign followed by decimal digits
(the shapes produced by slicing a hunk header); `none` models `ValueError`. -/
def pyInt? : List Char → Option Int
  | [] => none
  | '-' :: rest =>
    if rest.isEmpty then none else (digitsValAux 0 rest).map (fun n => -(n : Int))
  | '+' :: rest =>
    if rest.isEmpty then none else (digitsValAux 0 rest).map (fun n => (n : Int))
  | l => (digitsValAux 0 l).map (fun n => (n : Int))

/-- Python `dict` lookup `m.get(k)` (also `k in m` via `Option.isSome`). -/
def dget {K V : Type} [DecidableEq K] (m : List (K × V)) (k : K) : Option V :=
  (m.find? (fun p => decide (p.1 = k))).map (fun p => p.2)

/-- Python `dict` assignment `m[k] = v`: last write wins. -/
def dinsert {K V : Type} [DecidableEq K] (m : List (K × V)) (k : K) (v : V) :
    List (K × V) :=
  m.filter (fun p => decide (p.1 ≠ k)) ++ [(k, v)]

/-- Python `set.add` on a duplicate-free list model of a set of ints. -/
def sadd (s : List Int) (x : Int) : List Int := if x ∈ s then s else s ++ [x]

/-- One record of the `changes` collection handed to the engine:
`{ new_path, old_path, diff }` (`diff` is the file's unified-diff text). -/
structure FileDiff where
  new_path : String
  old_path : Option String := none
  diff : String := ""
deriving DecidableEq

/-- State of the hunk walk shared by `build_line_type_mapping_from_diff`
(`V = String`) and `build_line_mapping_from_diff` (`V = Option Int`):
the two counters (Python `None` before the first hunk header) and the
mapping dict keyed by `(file_path, line_number)`. -/
structure WalkSt (V : Type) where
  old_line : Option Int := none
  new_line : Option Int := none
  mapping : List ((String × Option Int) × V) := []
deriving DecidableEq

abbrev TypeMap := List ((String × Option Int) × String)

abbrev CorrMap := List ((String × Option Int) × Option Int)

/-- Parsing of a hunk header in `build_line_type_mapping_from_diff` /
`build_line_mapping_from_diff`: `parts = line.split(' ')`,
`old_start = int(parts[1].split(',')[0][1:])`,
`new_start = int(parts[2].split(',')[0][1:])`. -/
def parseHunkHeader (l : List Char) : Except PyErr (Int × Int) :=
  let parts := splitOnCh ' ' l
  match parts[1]?, parts[2]? with
  | some oldRange, some newRange =>
    match pyInt? (((splitOnCh ',' oldRange).headD []).drop 1) with
    | some oldStart =>
      match pyInt? (((splitOnCh ',' newRange).headD []).drop 1) with
      | some newStart => .ok (oldStart, newStart)
      | none => .error .valueError
    | none => .error .valueError
  | _, _ => .error .indexError

/-- Parsing of a hunk header in `extract_commentable_lines_from_diff`,
which reads only `parts[2]` (the `+new_start,new_count` range). -/
def parseNewStart (l : List Char) : Except PyErr Int :=
  let parts := splitOnCh ' ' l
  match parts[2]? with
  | some newRange =>
    match pyInt? (((splitOnCh ',' newRange).headD []).drop 1) with
    | some newStart => .ok newStart
    | none => .error .valueError
  | none => .error .indexError

/-- One iteration of the line loop of `build_line_type_mapping_from_diff`.
A branch that increments a counter that is still `None` raises `TypeError`
(`None + 1`); the dict write preceding the raise is unobservable because the
exception propagates out of the whole function. -/
def typeStep (fp : String) (st : WalkSt String) (l : List Char) :
    Except PyErr (WalkSt String) :=
  if startsWithCh l (strL "@@") then
    match parseHunkHeader l with
    | .ok (oldStart, newStart) => .ok ⟨some oldStart, some newStart, st.mapping⟩
    | .error e => .error e
  else if startsWithCh l (strL "+") && !startsWithCh l (strL "+++") then
    match st.new_line with
    | some n => .ok ⟨st.old_line, some (n + 1), dinsert st.mapping (fp, some n) "new"⟩
    | none => .error .typeError
  else if startsWithCh l (strL "-") && !startsWithCh l (strL "---") then
    match st.old_line with
    | some o => .ok ⟨some (o + 1), st.new_line, dinsert st.mapping (fp, some o) "deleted"⟩
    | none => .error .typeError
  else
    match st.old_line, st.new_line with
    | some o, some n =>
      .ok ⟨some (o + 1), some (n + 1), dinsert st.mapping (fp, some n) "unchanged"⟩
    | _, _ => .error .typeError

/-- The line loop of `build_line_type_mapping_from_diff` over one file. -/
def typeWalk (fp : String) (st : WalkSt String) :
    List (List Char) → Except PyErr (WalkSt String)
  | [] => .ok st
  | l :: ls =>
    match typeStep fp st l with
    | .ok st2 => typeWalk fp st2 ls
    | .error e => .error e

/-- The file loop of `build_line_type_mapping_from_diff`: one shared mapping
dict, counters reset to `None` for each file. -/
def buildTypeMapGo (m : TypeMap) : List FileDiff → Except PyErr TypeMap
  | [] => .ok m
  | fd :: rest =>
    match typeWalk fd.new_path ⟨none, none, m⟩ (pySplitlines fd.diff) with
    | .ok st => buildTypeMapGo st.mapping rest
    | .error e => .error e

/-- `build_line_type_mapping_from_diff(diff_json)`:
`(file_path, new_line) -> 'new' | 'deleted' | 'unchanged'`
(deleted lines are keyed by their old line number). -/
def build_line_type_mapping_from_diff (diffs : List FileDiff) : Except PyErr TypeMap :=
  buildTypeMapGo [] diffs

/-- One iteration of the line loop of `build_line_mapping_from_diff`:
added lines map to `None`, deleted lines write nothing, context lines map
to their old line number. -/
def corrStep (fp : String) (st : WalkSt (Option Int)) (l : List Char) :
    Except PyErr (WalkSt (Option Int)) :=
  if startsWithCh l (strL "@@") then
    match parseHunkHeader l with
    | .ok (oldStart, newStart) => .ok ⟨some oldStart, some newStart, st.mapping⟩
    | .error e => .error e
  else if startsWithCh l (strL "+") && !startsWithCh l (strL "+++") then
    match st.new_line with
    | some n => .ok ⟨st.old_line, some (n + 1), dinsert st.mapping (fp, some n) none⟩
    | none => .error .typeError
  else if startsWithCh l (strL "-") && !startsWithCh l (strL "---") then
    match st.old_line with
    | some o => .ok ⟨some (o + 1), st.new_line, st.mapping⟩
    | none => .error .typeError
  else
    match st.old_line, st.new_line with
    | some o, some n =>
      .ok ⟨some (o + 1), some (n + 1), dinsert st.mapping (fp, some n) (some o)⟩
    | _, _ => .error .typeError

/-- The line loop of `build_line_mapping_from_diff` over one file. -/
def corrWalk (fp : String) (st : WalkSt (Option Int)) :
    List (List Char) → Except PyErr (WalkSt (Option Int))
  | [] => .ok st
  | l :: ls =>
    match corrStep fp st l with
    | .ok st2 => corrWalk fp st2 ls
    | .error e => .error e

/-- The file loop of `build_line_mapping_from_diff`. -/
def buildCorrMapGo (m : CorrMap) : List FileDiff → Except PyErr CorrMap
  | [] => .ok m
  | fd :: rest =>
    match corrWalk fd.new_path ⟨none, none, m⟩ (pySplitlines fd.diff) with
    | .ok st => buildCorrMapGo st.mapping rest
    | .error e => .error e

/-- `build_line_mapping_from_diff(diff_json)`:
`(file_path, new_line) -> old_line or None`. -/
def build_line_mapping_from_diff (diffs : List FileDiff) : Except PyErr CorrMap :=
  buildCorrMapGo [] diffs

/-- One iteration of the line loop of `extract_commentable_lines_from_diff`.
Note the asymmetry of the source: the `+`-branch increments unconditionally
(raising `TypeError` before the first header), while the context branch is
guarded by `if new_line_num is not None`. -/
def extractStep (st : Option Int × List Int) (l : List Char) :
    Except PyErr (Option Int × List Int) :=
  if startsWithCh l (strL "@@") then
    match parseNewStart l with
    | .ok newStart => .ok (some newStart, st.2)
    | .error e => .error e
  else if startsWithCh l (strL "+") && !startsWithCh l (strL "+++") then
    match st.1 with
    | some n => .ok (some (n + 1), sadd st.2 n)
    | none => .error .typeError
  else if !startsWithCh l (strL "-") && !startsWithCh l (strL "---") then
    match st.1 with
    | some n => .ok (some (n + 1), sadd st.2 n)
    | none => .ok st
  else
    .ok st

/-- The line loop of `extract_commentable_lines_from_diff`. -/
def extractWalk (st : Option Int × List Int) :
    List (List Char) → Except PyErr (Option Int × List Int)
  | [] => .ok st
  | l :: ls =>
    match extractStep st l with
    | .ok st2 => extractWalk st2 ls
    | .error e => .error e

/-- `extract_commentable_lines_from_diff(diff_text)`: the set of new-file
line numbers that are visible/commentable in the diff. -/
def extract_commentable_lines_from_diff (diff_text : String) :
    Except PyErr (List Int) :=
  (extractWalk (none, []) (pySplitlines diff_text)).map (fun st => st.2)

abbrev FileToLines := List (String × List Int)

/-- The loop of `get_all_commentable_lines_from_mr_diffs`. -/
def getAllCommentableGo (m : FileToLines) : List FileDiff → Except PyErr FileToLines
  | [] => .ok m
  | fd :: rest =>
    match extract_commentable_lines_from_diff fd.diff with
    | .ok s => getAllCommentableGo (dinsert m fd.new_path s) rest
    | .error e => .error e

/-- `get_all_commentable_lines_from_mr_diffs(mr_diffs)`:
`{ file_path: set(commentable_new_lines) }`. -/
def get_all_commentable_lines_from_mr_diffs (mr_diffs : List FileDiff) :
    Except PyErr FileToLines :=
  getAllCommentableGo [] mr_diffs

/-- A candidate-comment dict.  Python dicts are open; the fields below are
the keys this engine reads (`line` in `post_line_comments_direct`,
`new_line` in the snapping pipeline).  A key that is absent — or, for the
keys only ever observed through `c.get(...)`, present with value `None` —
is `none`. -/
structure Comment where
  new_path : Option String := none
  line : Option Int := none
  comment : Option String := none
  type : Option String := none
  old_line : Option Int := none
  old_path : Option String := none
  position_type : Option String := none
  new_line : Option Int := none
deriving DecidableEq

/-- Python truthiness of `c.get(k)` for a string-valued key:
falsy iff the key is absent (`None`) or the value is the empty string. -/
def pyTruthyStr (v : Option String) : Bool :=
  match v with
  | none => false
  | some s => !(s == "")

/-- Python truthiness of `c.get(k)` for an int-valued key:
falsy iff the key is absent (`None`) or the value is `0`. -/
def pyTruthyInt (v : Option Int) : Bool :=
  match v with
  | none => false
  | some n => !(n == 0)

/-- Python `m.get(k)` on a dict whose stored values may themselves be `None`
(the correspondence index): an absent key and an explicit `None` value are
indistinguishable. -/
def pyGetOpt (m : CorrMap) (k : String × Option Int) : Option Int :=
  (dget m k).bind (fun v => v)

/-- `map_to_nearest_commentable_line(file_path, new_line, file_to_lines)`:
the largest commentable line `≤ new_line`, `None` when the file is unknown
or no such line exists.  A `None` line compared against a non-empty line
set raises `TypeError` (`l <= None`). -/
def map_to_nearest_commentable_line (file_path : Option String)
    (new_line : Option Int) (file_to_lines : FileToLines) :
    Except PyErr (Option Int) :=
  match file_path.bind (fun fp => dget file_to_lines fp) with
  | none => .ok none
  | some lines =>
    match new_line with
    | some n =>
      .ok ((List.insertionSort (· ≤ ·) lines).filter (fun l => decide (l ≤ n))).getLast?
    | none => if lines.isEmpty then .ok none else .error .typeError

/-- `adjust_comments_to_nearest_visible(comments, file_to_lines)`: keep each
comment whose claimed line maps to a visible line, on a copy carrying the
mapped line; drop the others. -/
def adjust_comments_to_nearest_visible (comments : List Comment)
    (file_to_lines : FileToLines) : Except PyErr (List Comment) :=
  match comments with
  | [] => .ok []
  | c :: rest =>
    match map_to_nearest_commentable_line c.new_path c.new_line file_to_lines with
    | .error e => .error e
    | .ok mapped =>
      match adjust_comments_to_nearest_visible rest file_to_lines with
      | .error e => .error e
      | .ok tail =>
        match mapped with
        | some m => .ok ({ c with new_line := some m } :: tail)
        | none => .ok tail

/-- The keyword dict assembled at the end of each loop iteration of
`post_line_comments_direct` and handed to
`gitlab_create_merge_request_thread` (the position payload: paths, lines,
and the three revision shas). -/
structure ThreadParams where
  body : String
  position_type : String
  new_path : String
  old_path : Option String
  base_sha : String
  start_sha : String
  head_sha : String
  new_line : Option Int
  old_line : Option Int
  type : Option String
deriving DecidableEq

/-- Per-comment outcome of the posting loop: skipped for missing required
fields, or the host-API call attempted with the assembled parameters (the
call itself is an external HTTP effect, caught per comment). -/
inductive Outcome
  | skippedMissing
  | attempted (params : ThreadParams)
deriving DecidableEq

/-- One iteration of the comment loop of `post_line_comments_direct`:
validate required fields, resolve a missing `type` from the line-type
mapping, backfill `old_line` from the correspondence mapping for
deleted/unchanged lines, then assemble the thread parameters.  The returned
`Comment` is the post-state of the caller's dict: the source mutates `c`
in place (`c["type"] = ...`, `c["old_line"] = ...`) and never copies it. -/
def processOne (tm : TypeMap) (lm : CorrMap)
    (base_sha start_sha head_sha : String) (c : Comment) : Comment × Outcome :=
  if !(pyTruthyStr c.new_path && pyTruthyInt c.line && pyTruthyStr c.comment) then
    (c, .skippedMissing)
  else
    let key : String × Option Int := (c.new_path.getD "", c.line)
    let c1 := if pyTruthyStr c.type then c else { c with type := dget tm key }
    let c2 :=
      if c1.type == some "deleted" || c1.type == some "unchanged" then
        match pyGetOpt lm key with
        | some v => { c1 with old_line := some v }
        | none => c1
      else c1
    (c2, .attempted
      { body := c2.comment.getD ""
        position_type := c2.position_type.getD "text"
        new_path := c2.new_path.getD ""
        old_path := c2.old_path
        base_sha := base_sha
        start_sha := start_sha
        head_sha := head_sha
        new_line := c2.line
        old_line := c2.old_line
        type := c2.type })

/-- The comment loop of `post_line_comments_direct`: each iteration is
wrapped in `try/except` in the source, so no comment aborts the batch. -/
def processLoop (tm : TypeMap) (lm : CorrMap)
    (base_sha start_sha head_sha : String) :
    List Comment → List (Comment × Outcome)
  | [] => []
  | c :: rest =>
    processOne tm lm base_sha start_sha head_sha c ::
      processLoop tm lm base_sha start_sha head_sha rest

/-- Result of `post_line_comments_direct`: the early `return` when the
diff refs are unavailable (reported, nothing processed), or the list of
per-comment post-states and outcomes. -/
inductive PostResult
  | refsMissing
  | done (results : List (Comment × Outcome))
deriving DecidableEq

/-- `post_line_comments_direct(project_id, mr_iid, comments, diffs)` with
the external inputs made explicit: the three revision identifiers come
from `get_gitlab_mr_diff_refs` (each `None` when absent from the host's
response) and `diffs` is the provided change collection.  The two index
builders run before the loop; an exception they raise propagates. -/
def post_line_comments_direct (base_sha start_sha head_sha : Option String)
    (diffs : List FileDiff) (comments : List Comment) :
    Except PyErr PostResult :=
  if !(pyTruthyStr base_sha && pyTruthyStr start_sha && pyTruthyStr head_sha) then
    .ok .refsMissing
  else
    match build_line_type_mapping_from_diff diffs with
    | .error e => .error e
    | .ok tm =>
      match build_line_mapping_from_diff diffs with
      | .error e => .error e
      | .ok lm =>
        .ok (.done (processLoop tm lm (base_sha.getD "") (start_sha.getD "")
          (head_sha.getD "") comments))

/-- The line classification implicit in the elif chain of the hunk walks:
hunk header, `Added` (`+` but not `+++`), `Removed` (`-` but not `---`),
`Context` (everything else). -/
inductive LineKind
  | header
  | added
  | removed
  | context
deriving DecidableEq

/-- Classify one diff line exactly as the elif chain of the walks does. -/
def lineClass (l : List Char) : LineKind :=
  if startsWithCh l (strL "@@") then .header
  else if startsWithCh l (strL "+") && !startsWithCh l (strL "+++") then .added
  else if startsWithCh l (strL "-") && !startsWithCh l (strL "---") then .removed
  else .context

/-- `b` of claim C1: how many lines of a hunk body are Removed or Context. -/
def countOldAdvance (body : List (List Char)) : Int :=
  (body.countP (fun l => decide (lineClass l = .removed ∨ lineClass l = .context)) : Int)

/-- `d` of claim C1: how many lines of a hunk body are Added or Context. -/
def countNewAdvance (body : List (List Char)) : Int :=
  (body.countP (fun l => decide (lineClass l = .added ∨ lineClass l = .context)) : Int)

lemma lineClass_spec_added {l : List Char} (h : lineClass l = .added) :
    startsWithCh l (strL "@@") = false ∧
      (startsWithCh l (strL "+") && !startsWithCh l (strL "+++")) = true := by
  unfold lineClass at h
  split_ifs at h
  all_goals simp_all

lemma lineClass_spec_removed {l : List Char} (h : lineClass l = .removed) :
    startsWithCh l (strL "@@") = false ∧
      (startsWithCh l (strL "+") && !startsWithCh l (strL "+++")) = false ∧
      (startsWithCh l (strL "-") && !startsWithCh l (strL "---")) = true := by
  unfold lineClass at h
  split_ifs at h
  all_goals simp_all

lemma lineClass_spec_context {l : List Char} (h : lineClass l = .context) :
    startsWithCh l (strL "@@") = false ∧
      (startsWithCh l (strL "+") && !startsWithCh l (strL "+++")) = false ∧
      (startsWithCh l (strL "-") && !startsWithCh l (strL "---")) = false := by
  unfold lineClass at h
  split_ifs at h
  all_goals simp_all

/-- Inside a hunk (both counters set, no further header line), the walk of
`build_line_type_mapping_from_diff` never fails and advances the old
counter once per Removed/Context line and the new counter once per
Added/Context line. -/
lemma typeWalk_counters (fp : String) :
    ∀ (body : List (List Char)) (o n : Int) (m : TypeMap),
      (∀ l ∈ body, lineClass l ≠ LineKind.header) →
      ∃ m2, typeWalk fp ⟨some o, some n, m⟩ body =
        .ok ⟨some (o + countOldAdvance body), some (n + countNewAdvance body), m2⟩ := by
  intro body
  induction body with
  | nil =>
    intro o n m _
    exact ⟨m, by simp [typeWalk, countOldAdvance, countNewAdvance]⟩
  | cons l ls ih =>
    intro o n m h
    have hl : lineClass l ≠ LineKind.header := h l (List.mem_cons_self _ _)
    have hrest : ∀ x ∈ ls, lineClass x ≠ LineKind.header := fun x hx =>
      h x (List.mem_cons_of_mem _ hx)
    rcases hc : lineClass l with _ | _ | _ | _
    · exact absurd hc hl
    · obtain ⟨h1, h2⟩ := lineClass_spec_added hc
      obtain ⟨m2, hih⟩ := ih o (n + 1) (dinsert m (fp, some n) "new") hrest
      refine ⟨m2, ?_⟩
      have hco : countOldAdvance (l :: ls) = countOldAdvance ls := by
        simp [countOldAdvance, List.countP_cons, hc]
      have hcn : countNewAdvance (l :: ls) = countNewAdvance ls + 1 := by
        simp [countNewAdvance, List.countP_cons, hc]
      have hstep : typeStep fp ⟨some o, some n, m⟩ l =
          .ok ⟨some o, some (n + 1), dinsert m (fp, some n) "new"⟩ := by
        simp [typeStep, h1, h2]
      simp only [typeWalk, hstep, hih, hco, hcn, Except.ok.injEq, WalkSt.mk.injEq,
        Option.some.injEq, true_and, and_true]
      omega
    · obtain ⟨h1, h2, h3⟩ := lineClass_spec_removed hc
      obtain ⟨m2, hih⟩ := ih (o + 1) n (dinsert m (fp, some o) "deleted") hrest
      refine ⟨m2, ?_⟩
      have hco : countOldAdvance (l :: ls) = countOldAdvance ls + 1 := by
        simp [countOldAdvance, List.countP_cons, hc]
      have hcn : countNewAdvance (l :: ls) = countNewAdvance ls := by
        simp [countNewAdvance, List.countP_cons, hc]
      have hstep : typeStep fp ⟨some o, some n, m⟩ l =
          .ok ⟨some (o + 1), some n, dinsert m (fp, some o) "deleted"⟩ := by
        simp [typeStep, h1, h2, h3]
      simp only [typeWalk, hstep, hih, hco, hcn, Except.ok.injEq, WalkSt.mk.injEq,
        Option.some.injEq, true_and, and_true]
      omega
    · obtain ⟨h1, h2, h3⟩ := lineClass_spec_context hc
      obtain ⟨m2, hih⟩ := ih (o + 1) (n + 1) (dinsert m (fp, some n) "unchanged") hrest
      refine ⟨m2, ?_⟩
      have hco : countOldAdvance (l :: ls) = countOldAdvance ls + 1 := by
        simp [countOldAdvance, List.countP_cons, hc]
      have hcn : countNewAdvance (l :: ls) = countNewAdvance ls + 1 := by
        simp [countNewAdvance, List.countP_cons, hc]
      have hstep : typeStep fp ⟨some o, some n, m⟩ l =
          .ok ⟨some (o + 1), some (n + 1), dinsert m (fp, some n) "unchanged"⟩ := by
        simp [typeStep, h1, h2, h3]
      simp only [typeWalk, hstep, hih, hco, hcn, Except.ok.injEq, WalkSt.mk.injEq,
        Option.some.injEq, true_and, and_true]
      omega

/-- C1: for every hunk header of the form `@@ -a,b +c,d @@` (a line starting
with `@@` whose parse yields `(a, c)`), the hunk walk of
`build_line_type_mapping_from_diff` initializes `old_line = a` and
`new_line = c`, and after consuming the hunk's lines (none of which is a
further header) it holds `old_line = a + b` and `new_line = c + d`, where
`b` counts exactly the Removed and Context lines and `d` exactly the Added
and Context lines of the hunk body. -/
theorem c1_hunk_counter_invariant (fp : String) (st : WalkSt String)
    (header : List Char) (a c : Int) (body : List (List Char))
    (hat : startsWithCh header (strL "@@") = true)
    (hparse : parseHunkHeader header = .ok (a, c))
    (hbody : ∀ l ∈ body, lineClass l ≠ LineKind.header) :
    typeStep fp st header = .ok ⟨some a, some c, st.mapping⟩ ∧
    ∃ m2, typeWalk fp st (header :: body) =
      .ok ⟨some (a + countOldAdvance body), some (c + countNewAdvance body), m2⟩ := by
  have hstep : typeStep fp st header = .ok ⟨some a, some c, st.mapping⟩ := by
    simp [typeStep, hat, hparse]
  refine ⟨hstep, ?_⟩
  obtain ⟨m2, hw⟩ := typeWalk_counters fp body a c st.mapping hbody
  exact ⟨m2, by simp only [typeWalk, hstep, hw]⟩

/-- Witness for C1 at the Scenario A hunk `@@ -1,3 +1,4 @@` with body
`[" context1", "+added1", " context2", " context3"]` (so `b = 3`, `d = 4`). -/
theorem c1_hunk_counter_invariant_w :
    typeStep "a.py" ⟨none, none, []⟩ (strL "@@ -1,3 +1,4 @@") =
      .ok ⟨some 1, some 1, []⟩ :=
  (c1_hunk_counter_invariant "a.py" ⟨none, none, []⟩ (strL "@@ -1,3 +1,4 @@") 1 1
    [strL " context1", strL "+added1", strL " context2", strL " context3"]
    (by decide) rfl (by decide)).1

/-- Scenario A of the spec: one file `a.py` with diff
`@@ -1,3 +1,4 @@\n context1\n+added1\n context2\n context3`. -/
def diffsA : List FileDiff :=
  [{ new_path := "a.py",
     diff := "@@ -1,3 +1,4 @@\n context1\n+added1\n context2\n context3" }]

/-- The value `build_line_type_mapping_from_diff` computes on Scenario A. -/
def typeMapA : TypeMap :=
  [(("a.py", some 1), "unchanged"), (("a.py", some 2), "new"),
   (("a.py", some 3), "unchanged"), (("a.py", some 4), "unchanged")]

/-- The value `build_line_mapping_from_diff` computes on Scenario A. -/
def corrMapA : CorrMap :=
  [(("a.py", some 1), some 1), (("a.py", some 2), none),
   (("a.py", some 3), some 2), (("a.py", some 4), some 3)]

/-- C2 counterexample: on Scenario A the correspondence dict is NOT missing
the key `("a.py", 2)` — `build_line_mapping_from_diff` executes
`mapping[(file_path, new_line)] = None` for the added line, so the key is
present with the explicit value `None`: `dget` returns `some none`, and
the Python membership test on that key is true in the source. -/
theorem c2_scenario_a_cx :
    build_line_mapping_from_diff diffsA = .ok corrMapA ∧
    dget corrMapA ("a.py", some 2) = some none ∧
    (dget corrMapA ("a.py", some 2)).isSome = true :=
  ⟨rfl, rfl, rfl⟩

/-- C2 amended: on Scenario A the visible/commentable set of `a.py` is
exactly `{1, 2, 3, 4}`; the line-kind index gives `"new"` (the code's
spelling of the spec's kind `added`) at `("a.py", 2)` and `"unchanged"` at
lines 1, 3 and 4; the correspondence index maps `("a.py", 1) ↦ 1`,
`("a.py", 3) ↦ 2`, `("a.py", 4) ↦ 3`, and holds the key `("a.py", 2)` with
the explicit no-correspondence value `None` (not an absent key, though
`dict.get` observes the two identically, cf. `pyGetOpt`). -/
theorem c2_scenario_a :
    get_all_commentable_lines_from_mr_diffs diffsA = .ok [("a.py", [1, 2, 3, 4])] ∧
    build_line_type_mapping_from_diff diffsA = .ok typeMapA ∧
    dget typeMapA ("a.py", some 2) = some "new" ∧
    dget typeMapA ("a.py", some 1) = some "unchanged" ∧
    dget typeMapA ("a.py", some 3) = some "unchanged" ∧
    dget typeMapA ("a.py", some 4) = some "unchanged" ∧
    build_line_mapping_from_diff diffsA = .ok corrMapA ∧
    dget corrMapA ("a.py", some 1) = some (some 1) ∧
    dget corrMapA ("a.py", some 3) = some (some 2) ∧
    dget corrMapA ("a.py", some 4) = some (some 3) ∧
    dget corrMapA ("a.py", some 2) = some none ∧
    pyGetOpt corrMapA ("a.py", some 2) = none :=
  ⟨rfl, rfl, rfl, rfl, rfl, rfl, rfl, rfl, rfl, rfl, rfl, rfl⟩

/-- A diff whose text still carries the `---`/`+++` file-header prefix in
front of the first hunk header. -/
def diffsWithFileHeader : List FileDiff :=
  [{ new_path := "a.py",
     diff := "--- a/a.py\n+++ b/a.py\n@@ -1,1 +1,1 @@\n x" }]

/-- C3 counterexample: on a diff whose text has content before the first
hunk header, `build_line_type_mapping_from_diff` is NOT recoverable: the
`---` line falls into the catch-all context branch, which increments the
still-`None` counters and raises `TypeError`; the exception propagates out
of `post_line_comments_direct` (built before the per-comment `try`), a hard
failure for every file and comment of the pass. -/
theorem c3_prefix_cx :
    build_line_type_mapping_from_diff diffsWithFileHeader = .error .typeError ∧
    post_line_comments_direct (some "b") (some "s") (some "h")
      diffsWithFileHeader [] = .error .typeError :=
  ⟨rfl, rfl⟩

/-- C3 amended: the two hunk walks treat pre-header content differently.
`extract_commentable_lines_from_diff` yields no line records for any prefix
whose lines are not hunk headers and start with `+` only when they start
with `+++` (the `---`/`+++` file headers and `diff`/`index` lines all
qualify) and never fails on it; `build_line_type_mapping_from_diff`
instead raises `TypeError` on the very first pre-header line, whatever it
is — the malformed prefix is a hard failure there, not a recoverable one. -/
theorem c3_prefix_handling (pre : List (List Char))
    (hpre : ∀ l ∈ pre, startsWithCh l (strL "@@") = false ∧
      (startsWithCh l (strL "+") = true → startsWithCh l (strL "+++") = true)) :
    extractWalk (none, []) pre = .ok (none, []) ∧
    ∀ (fp : String) (m : TypeMap) (l0 : List Char) (rest : List (List Char)),
      startsWithCh l0 (strL "@@") = false →
      typeWalk fp ⟨none, none, m⟩ (l0 :: rest) = .error .typeError := by
  constructor
  · induction pre with
    | nil => rfl
    | cons l ls ih =>
      obtain ⟨h1, h2⟩ := hpre l (List.mem_cons_self _ _)
      have hrest := fun x hx => hpre x (List.mem_cons_of_mem _ hx)
      have hstep : extractStep (none, []) l = .ok (none, []) := by
        have h2' : (startsWithCh l (strL "+") && !startsWithCh l (strL "+++")) = false := by
          cases hp : startsWithCh l (strL "+")
          · simp
          · simp [h2 hp]
        by_cases h3 : (!startsWithCh l (strL "-") && !startsWithCh l (strL "---")) = true
        · simp [extractStep, h1, h2', h3]
        · simp [extractStep, h1, h2', h3]
      simp only [extractWalk, hstep]
      exact ih hrest
  · intro fp m l0 rest h0
    have hstep : typeStep fp ⟨none, none, m⟩ l0 = .error .typeError := by
      by_cases h2 : (startsWithCh l0 (strL "+") && !startsWithCh l0 (strL "+++")) = true
      · simp [typeStep, h0, h2]
      · by_cases h3 : (startsWithCh l0 (strL "-") && !startsWithCh l0 (strL "---")) = true
        · simp [typeStep, h0, h2, h3]
        · simp [typeStep, h0, h2, h3]
    simp only [typeWalk, hstep]

/-- Witness for C3 (amended) at the standard git file-header prefix. -/
theorem c3_prefix_handling_w :
    extractWalk (none, []) [strL "--- a/a.py", strL "+++ b/a.py"] = .ok (none, []) ∧
    typeWalk "a.py" ⟨none, none, []⟩ [strL "--- a/a.py"] = .error .typeError := by
  have h := c3_prefix_handling [strL "--- a/a.py", strL "+++ b/a.py"] (by decide)
  exact ⟨h.1, h.2 "a.py" [] (strL "--- a/a.py") [] (by decide)⟩

/-- C5: every Removed line (`-` but not `---`) writes the kind `"deleted"`
into the line-kind index keyed by the current OLD line number and advances
only the old counter; the visible-set walk of
`extract_commentable_lines_from_diff` leaves both its counter and the
visible set untouched, so a Removed line contributes no visible line. -/
theorem c5_removed_lines (fp : String) (l : List Char) (o n : Int)
    (m : TypeMap) (s : List Int) (hc : lineClass l = LineKind.removed) :
    typeStep fp ⟨some o, some n, m⟩ l =
      .ok ⟨some (o + 1), some n, dinsert m (fp, some o) "deleted"⟩ ∧
    extractStep (some n, s) l = .ok (some n, s) := by
  obtain ⟨h1, h2, h3⟩ := lineClass_spec_removed hc
  have h4 : startsWithCh l (strL "-") = true := by
    cases hss : startsWithCh l (strL "-")
    · rw [hss] at h3
      simp at h3
    · rfl
  refine ⟨by simp [typeStep, h1, h2, h3], ?_⟩
  simp [extractStep, h1, h2, h4]

/-- Witness for C5: a Removed line at old line 5 yields the entry
`(("a.py", 5), "deleted")` and leaves the visible set empty. -/
theorem c5_removed_lines_w :
    typeStep "a.py" ⟨some 5, some 9, []⟩ (strL "-gone") =
      .ok ⟨some 6, some 9, [(("a.py", some 5), "deleted")]⟩ ∧
    extractStep (some 9, []) (strL "-gone") = .ok (some 9, []) := by
  have h := c5_removed_lines "a.py" (strL "-gone") 5 9 [] [] (by decide)
  refine ⟨?_, h.2⟩
  rw [h.1]
  rfl

lemma mem_of_getLast?_eq : ∀ {l : List Int} {m : Int}, l.getLast? = some m → m ∈ l
  | [], _, h => by simp at h
  | [a], m, h => by
    simp only [List.getLast?_singleton, Option.some.injEq] at h
    simp [h]
  | a :: b :: t, m, h => by
    rw [List.getLast?_cons_cons] at h
    exact List.mem_cons_of_mem _ (mem_of_getLast?_eq h)

lemma le_getLast?_of_sorted :
    ∀ {l : List Int}, l.Sorted (· ≤ ·) → ∀ {x m : Int}, x ∈ l → l.getLast? = some m → x ≤ m
  | [], _, _, _, hx, _ => by simp at hx
  | [a], _, x, m, hx, h => by
    simp only [List.getLast?_singleton, Option.some.injEq] at h
    simp only [List.mem_singleton] at hx
    simp [hx, h]
  | a :: b :: t, hs, x, m, hx, h => by
    rw [List.getLast?_cons_cons] at h
    rcases List.mem_cons.mp hx with rfl | hx2
    · exact (List.sorted_cons.mp hs).1 m (mem_of_getLast?_eq h)
    · exact le_getLast?_of_sorted (List.sorted_cons.mp hs).2 hx2 h

lemma getLast?_eq_of_sorted_max {l : List Int} (hs : l.Sorted (· ≤ ·)) {m : Int}
    (hmem : m ∈ l) (hub : ∀ x ∈ l, x ≤ m) : l.getLast? = some m := by
  have hne : l ≠ [] := by
    rintro rfl
    simp at hmem
  have hy : l.getLast? = some (l.getLast hne) := List.getLast?_eq_getLast_of_ne_nil hne
  have h1 : l.getLast hne ≤ m := hub _ (mem_of_getLast?_eq hy)
  have h2 : m ≤ l.getLast hne := le_getLast?_of_sorted hs hmem hy
  rw [hy, le_antisymm h2 h1]

/-- `map_to_nearest_commentable_line` returns exactly the greatest member of
the file's visible line set that is `≤` the claimed line. -/
lemma map_to_nearest_some_iff (fp : String) (n : Int) (ftl : FileToLines)
    (S : List Int) (hS : dget ftl fp = some S) (m : Int) :
    map_to_nearest_commentable_line (some fp) (some n) ftl = .ok (some m) ↔
      (m ∈ S ∧ m ≤ n ∧ ∀ l ∈ S, l ≤ n → l ≤ m) := by
  have hsorted : (List.insertionSort (· ≤ ·) S).Sorted (· ≤ ·) :=
    List.sorted_insertionSort (· ≤ ·) S
  have hvalid : ((List.insertionSort (· ≤ ·) S).filter
      (fun l => decide (l ≤ n))).Sorted (· ≤ ·) := hsorted.filter _
  have hmem : ∀ x : Int, (x ∈ (List.insertionSort (· ≤ ·) S).filter
      (fun l => decide (l ≤ n))) ↔ (x ∈ S ∧ x ≤ n) := by
    intro x
    simp [List.mem_filter, List.mem_insertionSort]
  unfold map_to_nearest_commentable_line
  simp only [Option.some_bind, hS, Except.ok.injEq]
  constructor
  · intro h
    obtain ⟨hm, hmn⟩ := (hmem m).mp (mem_of_getLast?_eq h)
    refine ⟨hm, hmn, fun l hl hln => ?_⟩
    exact le_getLast?_of_sorted hvalid ((hmem l).mpr ⟨hl, hln⟩) h
  · rintro ⟨hm, hmn, hub⟩
    refine getLast?_eq_of_sorted_max hvalid ((hmem m).mpr ⟨hm, hmn⟩) ?_
    intro x hx
    obtain ⟨hxS, hxn⟩ := (hmem x).mp hx
    exact hub x hxS hxn

/-- C4: for a candidate comment with a file and a claimed line, snapping
resolves exactly to the largest visible line `≤` the claimed line (so a
claimed line that is itself visible resolves to itself, and an invisible
one to the nearest visible line above it); when no such member exists, or
the file has no visible line set at all, the mapping yields `None` and
`adjust_comments_to_nearest_visible` drops the comment; when it yields a
line, the comment is kept on a copy carrying that line. -/
theorem c4_snap_to_nearest (ftl : FileToLines) (c : Comment) (fp : String)
    (n : Int) (rest rs : List Comment)
    (hfp : c.new_path = some fp) (hn : c.new_line = some n)
    (hrest : adjust_comments_to_nearest_visible rest ftl = .ok rs) :
    (∀ m : Int,
      map_to_nearest_commentable_line c.new_path c.new_line ftl = .ok (some m) ↔
        ∃ S, dget ftl fp = some S ∧ m ∈ S ∧ m ≤ n ∧ ∀ l ∈ S, l ≤ n → l ≤ m) ∧
    (dget ftl fp = none →
      map_to_nearest_commentable_line c.new_path c.new_line ftl = .ok none) ∧
    (map_to_nearest_commentable_line c.new_path c.new_line ftl = .ok none →
      adjust_comments_to_nearest_visible (c :: rest) ftl = .ok rs) ∧
    (∀ m : Int,
      map_to_nearest_commentable_line c.new_path c.new_line ftl = .ok (some m) →
      adjust_comments_to_nearest_visible (c :: rest) ftl =
        .ok ({ c with new_line := some m } :: rs)) := by
  rw [hfp, hn]
  refine ⟨?_, ?_, ?_, ?_⟩
  · intro m
    cases hdg : dget ftl fp with
    | none =>
      unfold map_to_nearest_commentable_line
      simp [Option.some_bind, hdg]
    | some S =>
      rw [map_to_nearest_some_iff fp n ftl S hdg m]
      constructor
      · intro h
        exact ⟨S, rfl, h⟩
      · rintro ⟨S2, hS2, h⟩
        cases hS2
        exact h
  · intro hdg
    unfold map_to_nearest_commentable_line
    simp [Option.some_bind, hdg]
  · intro hmap
    unfold adjust_comments_to_nearest_visible
    rw [hfp, hn, hmap, hrest]
  · intro m hmap
    unfold adjust_comments_to_nearest_visible
    rw [hfp, hn, hmap, hrest]

/-- Witness for C4 at Scenario C: a comment on `a.py` line 10 with visible
set `{1, 2, 3, 4}` resolves to line 4, and the comment is kept on line 4. -/
theorem c4_snap_to_nearest_w :
    map_to_nearest_commentable_line (some "a.py") (some 10)
      [("a.py", [1, 2, 3, 4])] = .ok (some 4) ∧
    adjust_comments_to_nearest_visible
      [{ new_path := some "a.py", new_line := some 10, comment := some "x" }]
      [("a.py", [1, 2, 3, 4])] =
      .ok [{ new_path := some "a.py", new_line := some 4, comment := some "x" }] := by
  have h := c4_snap_to_nearest [("a.py", [1, 2, 3, 4])]
    { new_path := some "a.py", new_line := some 10, comment := some "x" }
    "a.py" 10 [] [] rfl rfl rfl
  have hmap := (h.1 4).mpr ⟨[1, 2, 3, 4], rfl, by decide, by decide, by decide⟩
  exact ⟨hmap, h.2.2.2 4 hmap⟩

/-- The `type` in force after the resolution block of
`post_line_comments_direct`: the comment's own truthy `type`, otherwise the
line-type lookup at `(new_path, line)` (possibly `None`). -/
def resolvedType (tm : TypeMap) (c : Comment) : Option String :=
  if pyTruthyStr c.type then c.type else dget tm (c.new_path.getD "", c.line)

/-- C6: for a candidate comment that passes field validation, whose resolved
kind is `deleted` or `unchanged` and whose `old_line` is absent, the
reconciler sets `old_line` to exactly the correspondence lookup at
`(new_path, claimed_line)` — so the value is set only when the lookup
yields one, and when the lookup is unavailable (absent key or the explicit
`None` of an added line) `old_line` stays unset: no value is invented. -/
theorem c6_old_line_backfill (tm : TypeMap) (lm : CorrMap) (bs ss hs : String)
    (c : Comment) (p : String) (n : Int)
    (hp : c.new_path = some p) (hpne : p ≠ "")
    (hn : c.line = some n) (hnz : n ≠ 0)
    (hcm : pyTruthyStr c.comment = true)
    (hold : c.old_line = none)
    (htype : resolvedType tm c = some "deleted" ∨
      resolvedType tm c = some "unchanged") :
    ((processOne tm lm bs ss hs c).1).old_line = pyGetOpt lm (p, some n) ∧
    (pyGetOpt lm (p, some n) = none →
      ((processOne tm lm bs ss hs c).1).old_line = none) := by
  have hg1 : pyTruthyStr c.new_path = true := by
    rw [hp]
    simp [pyTruthyStr, hpne]
  have hg2 : pyTruthyInt c.line = true := by
    rw [hn]
    simp [pyTruthyInt, hnz]
  have hguard : (pyTruthyStr c.new_path && pyTruthyInt c.line &&
      pyTruthyStr c.comment) = true := by
    rw [hg1, hg2, hcm]
    rfl
  have hkey : (c.new_path.getD "", c.line) = (p, some n) := by
    rw [hp, hn]
    rfl
  have hE : ((processOne tm lm bs ss hs c).1).old_line = pyGetOpt lm (p, some n) := by
    by_cases ht : pyTruthyStr c.type = true
    · have hty : c.type = some "deleted" ∨ c.type = some "unchanged" := by
        simpa [resolvedType, ht] using htype
      have hcond : (c.type == some "deleted" || c.type == some "unchanged") = true := by
        rcases hty with h | h
        · simp [h]
        · simp [h]
      cases hmo : pyGetOpt lm (p, some n) with
      | some v => simp [processOne, hguard, hkey, ht, hcond, hmo]
      | none => simp [processOne, hguard, hkey, ht, hcond, hmo, hold]
    · have hres : resolvedType tm c = dget tm (c.new_path.getD "", c.line) := by
        simp [resolvedType, ht]
      have hcond : (dget tm (p, some n) == some "deleted" ||
          dget tm (p, some n) == some "unchanged") = true := by
        rw [hres, hkey] at htype
        rcases htype with h | h
        · simp [h]
        · simp [h]
      cases hmo : pyGetOpt lm (p, some n) with
      | some v => simp [processOne, hguard, hkey, ht, hcond, hmo]
      | none => simp [processOne, hguard, hkey, ht, hcond, hmo, hold]
  exact ⟨hE, fun h => by rw [hE, h]⟩

/-- Witness for C6: on Scenario A, a comment on the context line 1 with no
`old_line` gets `old_line = 1` backfilled from the correspondence index. -/
theorem c6_old_line_backfill_w :
    ((processOne typeMapA corrMapA "b" "s" "h"
      { new_path := some "a.py", line := some 1, comment := some "x" }).1).old_line =
      pyGetOpt corrMapA ("a.py", some 1) ∧
    pyGetOpt corrMapA ("a.py", some 1) = some 1 :=
  ⟨(c6_old_line_backfill typeMapA corrMapA "b" "s" "h"
      { new_path := some "a.py", line := some 1, comment := some "x" }
      "a.py" 1 rfl (by decide) rfl (by decide) (by decide) rfl
      (Or.inr (by decide))).1,
   rfl⟩

/-- C7: a candidate comment missing `new_path`, the claimed `line`, or the
`comment` text is skipped (outcome `skippedMissing`, its dict untouched)
without raising, and the rest of the batch is processed exactly as if the
defective comment were not there: the loop's results for the comments
before and after it are unchanged. -/
theorem c7_missing_fields_skipped (c : Comment)
    (hmiss : c.new_path = none ∨ c.line = none ∨ c.comment = none) :
    ∀ (tm : TypeMap) (lm : CorrMap) (bs ss hs : String) (pre suf : List Comment),
      processLoop tm lm bs ss hs (pre ++ c :: suf) =
        processLoop tm lm bs ss hs pre ++
          (c, Outcome.skippedMissing) :: processLoop tm lm bs ss hs suf := by
  have hg : (pyTruthyStr c.new_path && pyTruthyInt c.line &&
      pyTruthyStr c.comment) = false := by
    rcases hmiss with h | h | h
    · simp [pyTruthyStr, h]
    · simp [pyTruthyInt, h]
    · simp [pyTruthyStr, h]
  have hskip : ∀ (tm : TypeMap) (lm : CorrMap) (bs ss hs : String),
      processOne tm lm bs ss hs c = (c, Outcome.skippedMissing) := by
    intro tm lm bs ss hs
    simp [processOne, hg]
  intro tm lm bs ss hs pre suf
  induction pre with
  | nil => simp [processLoop, hskip]
  | cons a t ih =>
    simp only [List.cons_append, processLoop, List.append_eq]
    rw [ih]

/-- Witness for C7: a comment with text but no path is skipped between two
well-formed neighbours, whose results are those of the two-comment batch. -/
theorem c7_missing_fields_skipped_w :
    processLoop typeMapA corrMapA "b" "s" "h"
      [{ new_path := some "a.py", line := some 2, comment := some "x" },
       { line := some 3, comment := some "y" },
       { new_path := some "a.py", line := some 4, comment := some "z" }] =
      processLoop typeMapA corrMapA "b" "s" "h"
        [{ new_path := some "a.py", line := some 2, comment := some "x" }] ++
        ({ line := some 3, comment := some "y" }, Outcome.skippedMissing) ::
        processLoop typeMapA corrMapA "b" "s" "h"
          [{ new_path := some "a.py", line := some 4, comment := some "z" }] :=
  c7_missing_fields_skipped { line := some 3, comment := some "y" }
    (Or.inl rfl) typeMapA corrMapA "b" "s" "h"
    [{ new_path := some "a.py", line := some 2, comment := some "x" }]
    [{ new_path := some "a.py", line := some 4, comment := some "z" }]

/-- C8: when any of the three revision identifiers is unavailable (`None`
from the host's `diff_refs`), `post_line_comments_direct` takes the early
return before building any index or processing any comment: the result is
the bare `refsMissing` report and no position is constructed. -/
theorem c8_missing_refs_precondition (base_sha start_sha head_sha : Option String)
    (diffs : List FileDiff) (comments : List Comment)
    (hmiss : base_sha = none ∨ start_sha = none ∨ head_sha = none) :
    post_line_comments_direct base_sha start_sha head_sha diffs comments =
      .ok .refsMissing := by
  have hg : (pyTruthyStr base_sha && pyTruthyStr start_sha &&
      pyTruthyStr head_sha) = false := by
    rcases hmiss with h | h | h
    · simp [pyTruthyStr, h]
    · simp [pyTruthyStr, h]
    · simp [pyTruthyStr, h]
  simp [post_line_comments_direct, hg]

/-- Witness for C8: a missing `base_sha` short-circuits even a batch with a
processable comment and well-formed diffs. -/
theorem c8_missing_refs_precondition_w :
    post_line_comments_direct none (some "s") (some "h") diffsA
      [{ new_path := some "a.py", line := some 1, comment := some "x" }] =
      .ok .refsMissing :=
  c8_missing_refs_precondition none (some "s") (some "h") diffsA
    [{ new_path := some "a.py", line := some 1, comment := some "x" }]
    (Or.inl rfl)

/-- Running the reconciliation body a second time on the (possibly mutated)
comment dict left by the first run changes nothing: the type resolution
re-reads the same mapping, the `old_line` backfill re-derives the same
value, and the assembled thread parameters coincide. -/
lemma pyTruthyStr_none : pyTruthyStr none = false := rfl

lemma pyTruthyStr_deleted : pyTruthyStr (some "deleted") = true := rfl

lemma pyTruthyStr_unchanged : pyTruthyStr (some "unchanged") = true := rfl

/-- Running the reconciliation body a second time on the (possibly mutated)
comment dict left by the first run changes nothing: the type resolution
re-reads the same mapping, the `old_line` backfill re-derives the same
value, and the assembled thread parameters coincide. -/
lemma processOne_idem (tm : TypeMap) (lm : CorrMap) (bs ss hs : String)
    (c : Comment) :
    processOne tm lm bs ss hs (processOne tm lm bs ss hs c).1 =
      processOne tm lm bs ss hs c := by
  by_cases hg : (pyTruthyStr c.new_path && pyTruthyInt c.line &&
      pyTruthyStr c.comment) = true
  · by_cases ht : pyTruthyStr c.type = true
    · by_cases hcond : (c.type == some "deleted" ||
          c.type == some "unchanged") = true
      · have hcd : c.type = some "deleted" ∨ c.type = some "unchanged" := by
          simpa using hcond
        rcases hcd with h | h
        all_goals cases hmo : pyGetOpt lm (c.new_path.getD "", c.line)
        all_goals simp [processOne, hg, h, hmo, pyTruthyStr_deleted,
          pyTruthyStr_unchanged]
      · have hcd : ¬(c.type = some "deleted" ∨ c.type = some "unchanged") := by
          simpa using hcond
        simp [processOne, hg, ht, hcd]
    · cases hdt : dget tm (c.new_path.getD "", c.line) with
      | none => simp [processOne, hg, ht, hdt, pyTruthyStr_none]
      | some s =>
        by_cases hcond : ((some s : Option String) == some "deleted" ||
            (some s : Option String) == some "unchanged") = true
        · have hcd : s = "deleted" ∨ s = "unchanged" := by simpa using hcond
          rcases hcd with h | h
          all_goals subst h
          all_goals cases hmo : pyGetOpt lm (c.new_path.getD "", c.line)
          all_goals simp [processOne, hg, ht, hdt, hmo, pyTruthyStr_deleted,
            pyTruthyStr_unchanged]
        · have hcd : ¬(s = "deleted" ∨ s = "unchanged") := by simpa using hcond
          by_cases hs2 : pyTruthyStr (some s) = true
          · simp [processOne, hg, ht, hdt, hs2, hcd]
          · simp [processOne, hg, ht, hdt, hs2, hcd]
  · simp [processOne, hg]

/-- C9: reconciling the same candidate-comment collection twice against the
same indices and revision identifiers yields identical results: re-running
the loop on the comment dicts produced by the first run reproduces exactly
the first run's post-states and thread parameters (type, old_line,
new_line, paths, and revision fields alike). -/
theorem c9_reconcile_idempotent (tm : TypeMap) (lm : CorrMap)
    (bs ss hs : String) (comments : List Comment) :
    processLoop tm lm bs ss hs
        ((processLoop tm lm bs ss hs comments).map Prod.fst) =
      processLoop tm lm bs ss hs comments := by
  induction comments with
  | nil => rfl
  | cons c rest ih =>
    simp only [processLoop, List.map_cons, processOne_idem]
    rw [ih]

/-- The comment dict of claim C10: a candidate comment on the Scenario A
context line 1, carrying neither a `type` nor an `old_line` key. -/
def commentC10 : Comment :=
  { new_path := some "a.py", line := some 1, comment := some "x" }

/-- C10: `post_line_comments_direct` works on the caller's comment dicts in
place, never on copies: the loop body assigns `c["type"] = ...` and
`c["old_line"] = ...` into the very dict the caller passed (contrast
`adjust_comments_to_nearest_visible`, which calls `c.copy()`).  In this
embedding the comment list is threaded through as the mutable store, so the
post-state of the caller's dict is the first component of each result pair:
after the call the input comment carries the resolved `type` and `old_line`
keys it did not have before. -/
theorem c10_in_place_resolution :
    post_line_comments_direct (some "b") (some "s") (some "h") diffsA
        [commentC10] =
      .ok (.done
        [({ commentC10 with type := some "unchanged", old_line := some 1 },
          Outcome.attempted
            { body := "x", position_type := "text", new_path := "a.py",
              old_path := none, base_sha := "b", start_sha := "s",
              head_sha := "h", new_line := some 1, old_line := some 1,
              type := some "unchanged" })]) ∧
    commentC10.type = none ∧ commentC10.old_line = none :=
  ⟨rfl, rfl, rfl⟩

end CodeReview
